import Mathlib

/-!
Verification of the caching / resilient-fetch layer (`src/lib/supabase.ts`)
and the in-memory filter pipeline of the search results page of the
soft-play directory application.

The TypeScript source is shallowly embedded: asynchronous fetchers become
`Except` values describing their outcome, the module-level `Map` cache
becomes an explicit function from keys to optional entries threaded through
each call, and `Date.now()` becomes an explicit integer time parameter.
-/

namespace SoftPlay

/-! ## Keyed TTL cache (`fetchWithCache`, supabase.ts lines 56-88) -/

/-- A cache entry as stored by `cache.set(key, { data, timestamp: Date.now() })`. -/
structure CacheEntry (α : Type) where
  data : α
  timestamp : Int
deriving Repr, DecidableEq

/-- The module-level `const cache = new Map()`, embedded as a partial map
from string keys to entries. -/
def Cache (α : Type) : Type := String → Option (CacheEntry α)

/-- `cache.set(key, entry)`. -/
def cacheSet {α : Type} (c : Cache α) (k : String) (entry : CacheEntry α) : Cache α :=
  fun k' => if k' = k then some entry else c k'

/-- The observable outcome of one `fetchWithCache` invocation: the value
returned (or the error rethrown), the cache state after the call, and
whether the `fetcher` argument was invoked. -/
structure CacheFetchResult (ε α : Type) where
  result : Except ε α
  cache : Cache α
  invokedFetcher : Bool

/-- Embedding of `fetchWithCache` (supabase.ts lines 60-79).

`fetcher` is the outcome the fetcher would produce if invoked, `now` stands
for `Date.now()`.  The source reads the entry once (`cachedData`), returns
its payload when `cachedData.timestamp > Date.now() - ttl`, otherwise
invokes the fetcher; on success it stores `{ data, timestamp: now }` and
returns the data, on failure it returns the previously read entry payload
when one exists and rethrows otherwise. -/
def fetchWithCache {ε α : Type} (c : Cache α) (key : String)
    (fetcher : Except ε α) (ttl : Int) (now : Int) : CacheFetchResult ε α :=
  match c key with
  | some cachedData =>
    if cachedData.timestamp > now - ttl then
      { result := Except.ok cachedData.data, cache := c, invokedFetcher := false }
    else
      match fetcher with
      | Except.ok data =>
        { result := Except.ok data
          cache := cacheSet c key { data := data, timestamp := now }
          invokedFetcher := true }
      | Except.error _ =>
        { result := Except.ok cachedData.data, cache := c, invokedFetcher := true }
  | none =>
    match fetcher with
    | Except.ok data =>
      { result := Except.ok data
        cache := cacheSet c key { data := data, timestamp := now }
        invokedFetcher := true }
    | Except.error e =>
      { result := Except.error e, cache := c, invokedFetcher := true }

/-- `clearCache` (supabase.ts lines 82-88): with a key, delete that entry;
without one, clear the whole map. -/
def clearCache {α : Type} (c : Cache α) (key : Option String) : Cache α :=
  match key with
  | some k => fun k' => if k' = k then none else c k'
  | none => fun _ => none

/-! ## Resilient fetch wrapper (`fetchWithTimeout`, supabase.ts lines 181-199) -/

/-- The behaviour of the asynchronous operation handed to `fetchWithTimeout`:
either it resolves with a value after `delay` milliseconds, or it raises. -/
inductive AsyncOutcome (α : Type) where
  | resolvesAfter (delay : Int) (value : α)
  | raises
deriving Repr, DecidableEq

/-- What one run of `fetchWithTimeout` produces: the value handed back to the
caller, and whether a `clearTimeout` was executed on the timer the run
created with `setTimeout`. -/
structure TimeoutRunResult (α : Type) where
  result : α
  timerCleared : Bool
deriving Repr, DecidableEq

/-- Embedding of `fetchWithTimeout` (supabase.ts lines 181-199).

The source races `fetcher()` against a promise that rejects after `timeout`
milliseconds: when the fetcher resolves before the timer fires, its value is
returned; when the timer fires first or the fetcher raises, the `catch`
branch returns `fallback`.  The source never calls `clearTimeout` (the id of
its `setTimeout` is not even captured), so `timerCleared` is `false` on
every path. -/
def fetchWithTimeout {α : Type} (fetcher : AsyncOutcome α) (timeout : Int)
    (fallback : α) : TimeoutRunResult α :=
  match fetcher with
  | AsyncOutcome.resolvesAfter delay value =>
    if delay < timeout then
      { result := value, timerCleared := false }
    else
      { result := fallback, timerCleared := false }
  | AsyncOutcome.raises =>
    { result := fallback, timerCleared := false }

/-- What one run of the custom `fetch` option of the supabase client
produces: whether the mock fallback `Response` was substituted, and whether
the `clearTimeout(timeoutId)` of the run was executed. -/
structure CustomFetchResult where
  usedMockResponse : Bool
  timerCleared : Bool
deriving Repr, DecidableEq

/-- Embedding of the custom `fetch` option of the supabase client
(supabase.ts lines 27-53).  The input says whether the underlying `fetch`
promise resolves with a response (`true`) or rejects (`false`).  The `.then`
branch calls `clearTimeout(timeoutId)` and forwards the response; the
`.catch` branch calls `clearTimeout(timeoutId)` and substitutes a mock
`Response`, so both paths clear the timer. -/
def supabaseCustomFetch (underlyingFetchResolves : Bool) : CustomFetchResult :=
  if underlyingFetchResolves then
    { usedMockResponse := false, timerCleared := true }
  else
    { usedMockResponse := true, timerCleared := true }

/-! ## `safeSupabaseQuery` (supabase.ts lines 202-217) -/

/-- The shape of a resolved supabase query result, `{ data, error }`. -/
structure SupaResult (α ε : Type) where
  data : Option α
  error : Option ε
deriving Repr, DecidableEq

/-- The `{ data, error, usedFallback }` triple returned by
`safeSupabaseQuery` on every path. -/
structure SafeQueryResult (α ε : Type) where
  data : Option α
  error : Option ε
  usedFallback : Bool
deriving Repr, DecidableEq

/-- Embedding of `safeSupabaseQuery` (supabase.ts lines 202-217).

`queryFn` is the outcome of `await queryFn()`: `Except.ok` a resolved
`{ data, error }` pair, or `Except.error` when the query function raises.
A resolved result with a truthy `error` field yields
`{ data: fallbackData, error: result.error, usedFallback: true }`; a clean
result yields `{ data: result.data, error: null, usedFallback: false }`; a
raise is caught and yields `{ data: fallbackData, error, usedFallback: true }`.
The function is total: no failure propagates to the caller. -/
def safeSupabaseQuery {α ε : Type} (queryFn : Except ε (SupaResult α ε))
    (fallbackData : Option α) : SafeQueryResult α ε :=
  match queryFn with
  | Except.ok result =>
    match result.error with
    | some err => { data := fallbackData, error := some err, usedFallback := true }
    | none => { data := result.data, error := none, usedFallback := false }
  | Except.error e =>
    { data := fallbackData, error := some e, usedFallback := true }

/-! ## Venue records and string helpers for the filter pipeline -/

/-- A venue (playground) record, restricted to the fields the search page
filter pipeline reads.  `google_rating` is `number | null`, `features` is
`string[] | null` and `opening_hours` is a JSON object (embedded as an
association list from weekday name to an "HH:MM-HH:MM" string) that may be
null. -/
structure Venue where
  id : Int
  name : String
  description : String
  city : String
  postcode : String
  google_rating : Option ℚ
  features : Option (List String)
  opening_hours : Option (List (String × String))
deriving Repr, DecidableEq

/-- Whether `needle` is a prefix of `hay`, on character lists. -/
def listStartsWith : List Char → List Char → Bool
  | [], _ => true
  | _ :: _, [] => false
  | a :: as, b :: bs => a == b && listStartsWith as bs

/-- Whether `needle` occurs contiguously inside `hay`, on character lists:
the semantics of the JavaScript `String.prototype.includes`. -/
def listOccurs : List Char → List Char → Bool
  | needle, [] => listStartsWith needle []
  | needle, hay@(_ :: t) => listStartsWith needle hay || listOccurs needle t

/-- JavaScript `s.toLowerCase()` on the character list of a string.
`Char.toLower` folds the ASCII range, which covers every character the
filter keywords and feature tags of this application compare. -/
def lowerData (s : String) : List Char :=
  s.data.map Char.toLower

/-- JavaScript `hay.includes(needle)` where `hay` is an already lowercased
character list and `needle` a string literal. -/
def strIncludes (hay : List Char) (needle : String) : Bool :=
  listOccurs needle.data hay

/-- JavaScript `hay.toLowerCase().includes(needle.toLowerCase())`. -/
def strIncludesCI (hay needle : String) : Bool :=
  listOccurs (lowerData needle) (lowerData hay)

/-- JavaScript `s.split(sep)` for a single-character separator, on
character lists; the result of splitting is always non-empty, and splitting
the empty string yields `[[]]` just as `"".split(sep)` yields `[""]`. -/
def splitOnChar (sep : Char) : List Char → List (List Char)
  | [] => [[]]
  | c :: rest =>
    match splitOnChar sep rest with
    | [] => if c == sep then [[], []] else [[c]]
    | h :: t => if c == sep then [] :: h :: t else (c :: h) :: t

/-- Whether a character counts as whitespace for JavaScript `trim`. -/
def isJsSpace (c : Char) : Bool :=
  c == ' ' || c == '\t' || c == '\n' || c == '\r'

/-- JavaScript `s.trim()` on character lists. -/
def trimChars (l : List Char) : List Char :=
  ((l.dropWhile isJsSpace).reverse.dropWhile isJsSpace).reverse

/-- Value of a list of decimal digit characters. -/
def digitsToNat (l : List Char) : Nat :=
  l.foldl (fun acc c => acc * 10 + (c.toNat - 48)) 0

/-- JavaScript `Number(s)` restricted to the strings that occur as hour
components of "HH:MM-HH:MM" data: the empty string evaluates to `0`, a
string of decimal digits to its value, and anything else to `NaN`
(embedded as `none`). -/
def jsCharsToInt (l : List Char) : Option Int :=
  if l = [] then some 0
  else if l.all Char.isDigit then some (digitsToNat l)
  else none

/-! ## Category filter (search page, lines 75-120 of the results page) -/

/-- The closing hour a time-range string yields in the `late` branch of the
category filter: `timeRange.split('-')[1]?.trim()`, rejecting a falsy
`timeRange` or a falsy `closingTime`, then `Number` of the first
`':'`-separated component.  `none` stands for every early `return false`
and for `NaN`. -/
def closingHour (timeRange : String) : Option Int :=
  if timeRange.data = [] then none
  else
    match (splitOnChar '-' timeRange.data).get? 1 with
    | none => none
    | some second =>
      let closingTime := trimChars second
      if closingTime = [] then none
      else
        match (splitOnChar ':' closingTime).head? with
        | none => none
        | some hourStr => jsCharsToInt hourStr

/-- One time range satisfies the `late` test when its parsed closing hour is
at least 18. -/
def closesLate (timeRange : String) : Bool :=
  match closingHour timeRange with
  | none => false
  | some hour => decide (18 ≤ hour)

/-- The `late` branch of the category switch: a venue with no opening hours
is rejected; otherwise `Object.values(hours).some(...)` looks for any day
whose closing hour is ≥ 18. -/
def openLate (v : Venue) : Bool :=
  match v.opening_hours with
  | none => false
  | some hours => (hours.map Prod.snd).any closesLate

/-- The category switch of the results page (lines 79-118, and identically
lines 177-216 of the mock path).  `features` is the lowercased feature list
(empty when the field is null); each named category tests
`features.some(f => f.includes(...))` against its keyword set, `late`
inspects the opening hours, and any other category matches everything. -/
def categoryMatches (category : String) (v : Venue) : Bool :=
  let features := (v.features.getD []).map lowerData
  if category = "toddler" then
    features.any (fun f =>
      strIncludes f "toddler" || strIncludes f "baby" ||
      strIncludes f "0-2" || strIncludes f "under 3")
  else if category = "party" then
    features.any (fun f =>
      strIncludes f "party" || strIncludes f "celebration" ||
      strIncludes f "events")
  else if category = "cafe" then
    features.any (fun f =>
      strIncludes f "café" || strIncludes f "cafe" ||
      strIncludes f "food" || strIncludes f "refreshments")
  else if category = "parking" then
    features.any (fun f =>
      strIncludes f "free parking" || strIncludes f "parking" ||
      strIncludes f "car park")
  else if category = "late" then
    openLate v
  else
    true

/-- The category filter step: applied only when `category` is truthy and the
collection is non-empty (`if (category && filteredData.length > 0)`). -/
def filterByCategory (category : String) (vs : List Venue) : List Venue :=
  if category ≠ "" ∧ vs ≠ [] then vs.filter (categoryMatches category) else vs

/-! ## Feature-tag filter (lines 123-131, and 220-228 of the mock path) -/

/-- The predicate of the feature-tag filter for one venue:
`selectedFeatures.every(feature => playground.features?.some(f =>
f.toLowerCase().includes(feature.toLowerCase())))`; a null feature list
makes the inner `some` falsy. -/
def venueHasAllFeatures (selectedFeatures : List String) (v : Venue) : Bool :=
  selectedFeatures.all (fun feature =>
    match v.features with
    | none => false
    | some fs => fs.any (fun f => strIncludesCI f feature))

/-- The feature-tag filter step: applied only when some features are
selected (`if (selectedFeatures.length > 0)`). -/
def filterByFeatures (selectedFeatures : List String) (vs : List Venue) : List Venue :=
  if selectedFeatures ≠ [] then vs.filter (venueHasAllFeatures selectedFeatures) else vs

/-! ## Minimum-rating filter (lines 133-138, and 230-235 of the mock path) -/

/-- `Math.min(...selectedRatings)` for a non-empty selection. -/
def jsMinList (r : ℚ) (rs : List ℚ) : ℚ :=
  rs.foldl min r

/-- The predicate of the rating filter for one venue:
`playground.google_rating && playground.google_rating >= minRating` — the
rating must be truthy (non-null and non-zero) and at least the threshold. -/
def venueRatingAtLeast (minRating : ℚ) (v : Venue) : Bool :=
  match v.google_rating with
  | none => false
  | some g => decide (g ≠ 0) && decide (minRating ≤ g)

/-- The minimum-rating filter step: for a non-empty selection the effective
threshold is `Math.min(...selectedRatings)`; an empty selection leaves the
collection untouched (`if (selectedRatings.length > 0)`). -/
def filterByRatings (selectedRatings : List ℚ) (vs : List Venue) : List Venue :=
  match selectedRatings with
  | [] => vs
  | r :: rs => vs.filter (venueRatingAtLeast (jsMinList r rs))

/-- The rating checkboxes the page offers (line 369 of the results page):
a selected rating is always one of these. -/
def ratingOptions : List ℚ := [4.5, 4, 3.5, 3]

/-! ## Concrete venues used to instantiate the theorems -/

/-- A venue shaped like the "Jungle Jims" mock record, whose only opening
hours entry closes at 18:30 on Friday: the included venue of the
specification scenario for the open-late filter. -/
def vFridayLate : Venue :=
  { id := 1
    name := "Jungle Jims"
    description := "Jungle-themed indoor play centre"
    city := "Birmingham"
    postcode := "B2 5DP"
    google_rating := some 4
    features := some ["Soft Play", "Ball Cannons", "Rope Bridges", "Café"]
    opening_hours := some [("Friday", "9:30-18:30")] }

/-- The excluded venue of the open-late scenario: Friday closing at 17:30. -/
def vFridayEarly : Venue :=
  { vFridayLate with
    id := 2
    opening_hours := some [("Friday", "9:30-17:30")] }

/-- A venue open late only on Saturday. -/
def vSaturdayLate : Venue :=
  { vFridayLate with
    id := 3
    opening_hours := some [("Friday", "9:00-17:00"), ("Saturday", "10:00-20:00")] }

/-- A venue with rating 5. -/
def demoHigh : Venue :=
  { vFridayLate with
    id := 10
    google_rating := some 5 }

/-- A venue with rating 2. -/
def demoLow : Venue :=
  { vFridayLate with
    id := 11
    google_rating := some 2 }

/-- A venue whose rating field is null. -/
def demoNoRating : Venue :=
  { vFridayLate with
    id := 12
    google_rating := none }

/-- A venue whose rating field is 0, a falsy JavaScript number. -/
def demoZeroRating : Venue :=
  { vFridayLate with
    id := 13
    google_rating := some 0 }

/-- A small venue collection exercising every rating shape. -/
def demoVenues : List Venue := [demoHigh, demoLow, demoNoRating, demoZeroRating]

/-! ## Theorems about the keyed TTL cache -/

/-- C1: calling `fetchWithCache(k, f, ttl)` twice, the second call within
`ttl` milliseconds of the first successful call, invokes the fetcher at
most once in total; and whenever the first call did invoke the (succeeding)
fetcher, the second call finds a fresh entry and returns its stored payload
without invoking the fetcher again. -/
theorem fetchWithCache_twice_within_ttl {α ε : Type} (c : Cache α) (k : String)
    (v : α) (ttl t0 t1 : Int) (h : t1 - t0 < ttl) :
    ((if (fetchWithCache c k (Except.ok v : Except ε α) ttl t0).invokedFetcher then 1 else 0) +
        (if (fetchWithCache (fetchWithCache c k (Except.ok v : Except ε α) ttl t0).cache
            k (Except.ok v : Except ε α) ttl t1).invokedFetcher then 1 else 0) ≤ 1)
    ∧ ((fetchWithCache c k (Except.ok v : Except ε α) ttl t0).invokedFetcher = true →
        (fetchWithCache (fetchWithCache c k (Except.ok v : Except ε α) ttl t0).cache
          k (Except.ok v : Except ε α) ttl t1).invokedFetcher = false
        ∧ (fetchWithCache (fetchWithCache c k (Except.ok v : Except ε α) ttl t0).cache
            k (Except.ok v : Except ε α) ttl t1).result = Except.ok v) := by
  have hfresh : t0 > t1 - ttl := by omega
  cases hc : c k with
  | none =>
    simp [fetchWithCache, hc, cacheSet, hfresh]
  | some entry =>
    by_cases hf : entry.timestamp > t0 - ttl
    · simp [fetchWithCache, hc, hf]
      split <;> simp
    · simp [fetchWithCache, hc, hf, cacheSet, hfresh]

/-- Witness for C1: starting from an empty cache, a first call at time 0
stores the fetched value and a second call 1000 ms later returns it without
invoking the fetcher. -/
theorem fetchWithCache_twice_within_ttl_witness :
    (fetchWithCache (fetchWithCache (fun _ => none) "playgrounds"
        (Except.ok 42 : Except String Nat) 60000 0).cache
      "playgrounds" (Except.ok 42 : Except String Nat) 60000 1000).invokedFetcher = false
    ∧ (fetchWithCache (fetchWithCache (fun _ => none) "playgrounds"
        (Except.ok 42 : Except String Nat) 60000 0).cache
      "playgrounds" (Except.ok 42 : Except String Nat) 60000 1000).result = Except.ok 42 :=
  (fetchWithCache_twice_within_ttl (fun _ => none) "playgrounds" 42 60000 0 1000
    (by decide)).2 rfl

/-- C2: when the fetcher fails, `fetchWithCache` returns the stored payload
of an existing (fresh or stale) entry for the key instead of raising, and
propagates the failure only when no entry exists. -/
theorem fetchWithCache_error_fallback {α ε : Type} (c : Cache α) (k : String)
    (e : ε) (ttl now : Int) :
    (∀ cd : CacheEntry α, c k = some cd →
      (fetchWithCache c k (Except.error e : Except ε α) ttl now).result = Except.ok cd.data)
    ∧ (c k = none →
      (fetchWithCache c k (Except.error e : Except ε α) ttl now).result = Except.error e) := by
  constructor
  · intro cd hcd
    simp [fetchWithCache, hcd]
    split <;> rfl
  · intro hnone
    simp [fetchWithCache, hnone]

/-- Witness for C2: with a stale entry of payload 7 under the key, a failing
refresh returns 7; with no entry, the error is propagated. -/
theorem fetchWithCache_error_fallback_witness :
    (fetchWithCache (fun k => if k = "a" then some { data := 7, timestamp := 0 } else none)
      "a" (Except.error "boom" : Except String Nat) 60000 100000).result = Except.ok 7
    ∧ (fetchWithCache (fun _ => none)
      "b" (Except.error "boom" : Except String Nat) 60000 100000).result = Except.error "boom" :=
  ⟨(fetchWithCache_error_fallback
      (fun k => if k = "a" then some { data := 7, timestamp := 0 } else none)
      "a" "boom" 60000 100000).1 { data := 7, timestamp := 0 } rfl,
    (fetchWithCache_error_fallback (fun _ => none) "b" "boom" 60000 100000).2 rfl⟩

/-- C9: a call whose fetcher fails leaves the cache exactly as it was: no
entry is written, overwritten or deleted for any key. -/
theorem fetchWithCache_error_preserves_cache {α ε : Type} (c : Cache α) (k : String)
    (e : ε) (ttl now : Int) :
    (fetchWithCache c k (Except.error e : Except ε α) ttl now).cache = c := by
  cases hc : c k with
  | none => simp [fetchWithCache, hc]
  | some entry => by_cases hf : entry.timestamp > now - ttl <;> simp [fetchWithCache, hc, hf]

/-! ## Theorems about the resilient fetch wrapper -/

/-- C3: `fetchWithTimeout` returns the fallback value whenever the timeout
timer fires before the fetcher resolves, and whenever the fetcher raises;
being a total function it never surfaces the failure to the caller. -/
theorem fetchWithTimeout_returns_fallback {α : Type} (d t : Int) (v fb : α)
    (h : t < d) :
    (fetchWithTimeout (AsyncOutcome.resolvesAfter d v) t fb).result = fb
    ∧ (fetchWithTimeout (AsyncOutcome.raises : AsyncOutcome α) t fb).result = fb := by
  refine ⟨?_, rfl⟩
  have hd : ¬ d < t := by omega
  simp [fetchWithTimeout, hd]

/-- Witness for C3, the scenario of the specification: a fetcher resolving
after 500 ms raced against a 100 ms timeout yields the fallback "X". -/
theorem fetchWithTimeout_returns_fallback_witness :
    (fetchWithTimeout (AsyncOutcome.resolvesAfter 500 "slow") 100 "X").result = "X" :=
  (fetchWithTimeout_returns_fallback 500 100 "slow" "X" (by decide)).1

/-- C4 counterexample: the claim says the timeout timer is cleared before
the wrapper returns on every execution, but `fetchWithTimeout` contains no
`clearTimeout` at all: here the operation resolves well before the 5000 ms
timeout, the wrapper returns its value, and the timer is left uncleared. -/
theorem fetchWithTimeout_timer_never_cleared_cex :
    (fetchWithTimeout (AsyncOutcome.resolvesAfter 200 (0 : Int)) 5000 0).timerCleared = false :=
  rfl

/-- C4 amended: only the custom `fetch` of the supabase client clears its
timeout timer on both completion paths; `fetchWithTimeout` never clears the
timer it creates, on any of its paths. -/
theorem timeout_timer_clearing_amended :
    (∀ b : Bool, (supabaseCustomFetch b).timerCleared = true)
    ∧ ∀ (α : Type) (op : AsyncOutcome α) (t : Int) (fb : α),
        (fetchWithTimeout op t fb).timerCleared = false := by
  constructor
  · intro b
    cases b <;> rfl
  · intro α op t fb
    cases op with
    | resolvesAfter d v => by_cases hd : d < t <;> simp [fetchWithTimeout, hd]
    | raises => rfl

/-- C5: `safeSupabaseQuery` yields `{data: fallback, error, usedFallback:
true}` when the resolved result carries an error indicator, `{data:
payload, error: null, usedFallback: false}` when it does not, and `{data:
fallback, error, usedFallback: true}` when the query function raises; it is
total, so no failure propagates. -/
theorem safeSupabaseQuery_cases {α ε : Type} (res : SupaResult α ε)
    (fb : Option α) (e : ε) :
    (∀ err : ε, res.error = some err →
      safeSupabaseQuery (Except.ok res) fb =
        { data := fb, error := some err, usedFallback := true })
    ∧ (res.error = none →
      safeSupabaseQuery (Except.ok res) fb =
        { data := res.data, error := none, usedFallback := false })
    ∧ safeSupabaseQuery (Except.error e : Except ε (SupaResult α ε)) fb =
        { data := fb, error := some e, usedFallback := true } := by
  refine ⟨?_, ?_, rfl⟩
  · intro err herr
    simp [safeSupabaseQuery, herr]
  · intro hnone
    simp [safeSupabaseQuery, hnone]

/-- Witness for C5: a resolved result with an embedded error yields the
fallback triple, a clean result passes its payload through, and a raising
query function yields the fallback triple. -/
theorem safeSupabaseQuery_cases_witness :
    safeSupabaseQuery (Except.ok ({ data := some 1, error := some "bad" } : SupaResult Nat String))
        (some 9) = { data := some 9, error := some "bad", usedFallback := true }
    ∧ safeSupabaseQuery (Except.ok ({ data := some 1, error := none } : SupaResult Nat String))
        (some 9) = { data := some 1, error := none, usedFallback := false }
    ∧ safeSupabaseQuery (Except.error "down" : Except String (SupaResult Nat String))
        (some 9) = { data := some 9, error := some "down", usedFallback := true } :=
  ⟨(safeSupabaseQuery_cases { data := some 1, error := some "bad" } (some 9) "down").1 "bad" rfl,
    (safeSupabaseQuery_cases { data := some 1, error := none } (some 9) "down").2.1 rfl,
    (safeSupabaseQuery_cases { data := some 1, error := some "bad" } (some 9) "down").2.2⟩

/-! ## Theorems about the filter pipeline -/

/-- `listStartsWith` agrees with the mathematical prefix relation. -/
theorem listStartsWith_iff (needle hay : List Char) :
    listStartsWith needle hay = true ↔ ∃ rest, hay = needle ++ rest := by
  induction needle generalizing hay with
  | nil => simp [listStartsWith]
  | cons a as ih =>
    cases hay with
    | nil => simp [listStartsWith]
    | cons b bs =>
      simp only [listStartsWith, Bool.and_eq_true, beq_iff_eq, ih, List.cons_append,
        List.cons.injEq]
      constructor
      · rintro ⟨rfl, rest, rfl⟩
        exact ⟨rest, rfl, rfl⟩
      · rintro ⟨rest, rfl, rfl⟩
        exact ⟨rfl, rest, rfl⟩

/-- `listOccurs` agrees with the mathematical contiguous-substring relation:
the needle occurs exactly when the haystack decomposes around it. -/
theorem listOccurs_iff (needle hay : List Char) :
    listOccurs needle hay = true ↔ ∃ pre post, hay = pre ++ needle ++ post := by
  induction hay with
  | nil =>
    simp [listOccurs, listStartsWith_iff]
  | cons b bs ih =>
    simp only [listOccurs, Bool.or_eq_true, listStartsWith_iff, ih]
    constructor
    · rintro (⟨rest, hr⟩ | ⟨pre, post, hpp⟩)
      · exact ⟨[], rest, by simpa using hr⟩
      · exact ⟨b :: pre, post, by simp [hpp]⟩
    · rintro ⟨pre, post, hpp⟩
      cases pre with
      | nil =>
        exact Or.inl ⟨post, by simpa using hpp⟩
      | cons p ps =>
        simp only [List.cons_append, List.cons.injEq] at hpp
        exact Or.inr ⟨ps, post, hpp.2⟩

/-- The per-venue predicate of the feature-tag filter holds exactly when,
for every selected tag, the venue has a feature list containing a feature of
which the lowercased selected tag is a contiguous substring. -/
theorem venueHasAllFeatures_iff (S : List String) (v : Venue) :
    venueHasAllFeatures S v = true ↔
      ∀ s ∈ S, ∃ fs, v.features = some fs ∧
        ∃ tag ∈ fs, ∃ pre post, lowerData tag = pre ++ lowerData s ++ post := by
  cases hf : v.features with
  | none =>
    simp [venueHasAllFeatures, hf, List.all_eq_true]
  | some fs =>
    simp only [venueHasAllFeatures, hf, List.all_eq_true, List.any_eq_true,
      strIncludesCI, listOccurs_iff, Option.some.injEq]
    constructor
    · intro h s hs
      obtain ⟨tag, htag, pre, post, hpp⟩ := h s hs
      exact ⟨fs, rfl, tag, htag, pre, post, hpp⟩
    · intro h s hs
      obtain ⟨fs', hfs', tag, htag, pre, post, hpp⟩ := h s hs
      subst hfs'
      exact ⟨tag, htag, pre, post, hpp⟩

/-- C7: for a non-empty feature-tag selection `S`, the feature-tag filter
step retains exactly the venues of which every selected tag is a
case-insensitive substring of some feature; a venue with a null feature
list is excluded (the right-hand side is then unsatisfiable). -/
theorem filterByFeatures_spec (S : List String) (hS : S ≠ []) (vs : List Venue) (v : Venue) :
    v ∈ filterByFeatures S vs ↔
      v ∈ vs ∧ ∀ s ∈ S, ∃ fs, v.features = some fs ∧
        ∃ tag ∈ fs, ∃ pre post, lowerData tag = pre ++ lowerData s ++ post := by
  rw [filterByFeatures, if_pos hS, List.mem_filter, venueHasAllFeatures_iff]

/-- Witness for C7: the "Jungle Jims" shaped venue is retained by the
selection `["play"]` because "play" occurs case-insensitively inside its
"Soft Play" feature. -/
theorem filterByFeatures_spec_witness :
    vFridayLate ∈ filterByFeatures ["play"] [vFridayLate] := by
  refine (filterByFeatures_spec ["play"] (by decide) [vFridayLate] vFridayLate).mpr
    ⟨by simp, ?_⟩
  intro s hs
  rw [List.mem_singleton] at hs
  subst hs
  refine ⟨["Soft Play", "Ball Cannons", "Rope Bridges", "Café"], by rfl,
    "Soft Play", by simp, "soft ".data, [], by decide⟩

/-- `Math.min` over a non-empty selection of positive values is positive. -/
theorem jsMinList_pos (r : ℚ) (rs : List ℚ) (h : ∀ x ∈ r :: rs, 0 < x) :
    0 < jsMinList r rs := by
  induction rs generalizing r with
  | nil => exact h r (by simp)
  | cons x xs ih =>
    have h1 : 0 < min r x := lt_min (h r (by simp)) (h x (by simp))
    have := ih (min r x) ?_
    · simpa [jsMinList, List.foldl_cons] using this
    · intro y hy
      rcases List.mem_cons.mp hy with rfl | hy
      · exact h1
      · exact h y (by simp [hy])

/-- C6: for a non-empty selection of rating thresholds taken from the
rating checkboxes of the page, the minimum-rating filter step produces the
same output as filtering by the single threshold `min(r1, r2, ...)`, and
the retained venues are exactly those of the collection carrying a rating
at least that minimum. -/
theorem filterByRatings_min_equiv (r : ℚ) (rs : List ℚ) (vs : List Venue)
    (hsel : ∀ x ∈ r :: rs, x ∈ ratingOptions) :
    filterByRatings (r :: rs) vs = filterByRatings [jsMinList r rs] vs
    ∧ ∀ v, v ∈ filterByRatings (r :: rs) vs ↔
        v ∈ vs ∧ ∃ g : ℚ, v.google_rating = some g ∧ jsMinList r rs ≤ g := by
  have hpos : 0 < jsMinList r rs := by
    apply jsMinList_pos
    intro x hx
    have := hsel x hx
    simp only [ratingOptions, List.mem_cons, List.mem_singleton] at this
    rcases this with rfl | rfl | rfl | rfl | h
    · norm_num
    · norm_num
    · norm_num
    · norm_num
    · simp at h
  refine ⟨rfl, ?_⟩
  intro v
  rw [filterByRatings, List.mem_filter]
  constructor
  · rintro ⟨hmem, hpred⟩
    refine ⟨hmem, ?_⟩
    unfold venueRatingAtLeast at hpred
    cases hg : v.google_rating with
    | none => rw [hg] at hpred; simp at hpred
    | some g =>
      rw [hg] at hpred
      simp only [Bool.and_eq_true, decide_eq_true_eq] at hpred
      exact ⟨g, rfl, hpred.2⟩
  · rintro ⟨hmem, g, hg, hge⟩
    refine ⟨hmem, ?_⟩
    unfold venueRatingAtLeast
    rw [hg]
    have : g ≠ 0 := by
      intro h0
      rw [h0] at hge
      exact absurd (lt_of_lt_of_le hpos hge) (lt_irrefl 0)
    simp [this, hge]

/-- Witness for C6: over the demo collection, selecting the thresholds
`{3, 4}` is the same as selecting `{min 3 4}`, and the rating-5 venue is
retained exactly because its rating is at least that minimum. -/
theorem filterByRatings_min_equiv_witness :
    filterByRatings [3, 4] demoVenues = filterByRatings [jsMinList 3 [4]] demoVenues
    ∧ (demoHigh ∈ filterByRatings [3, 4] demoVenues ↔
        demoHigh ∈ demoVenues ∧ ∃ g : ℚ, demoHigh.google_rating = some g ∧ jsMinList 3 [4] ≤ g) :=
  ⟨(filterByRatings_min_equiv 3 [4] demoVenues
      (by intro x hx; simp only [List.mem_cons, List.not_mem_nil, or_false] at hx
          rcases hx with rfl | rfl <;> simp [ratingOptions])).1,
    (filterByRatings_min_equiv 3 [4] demoVenues
      (by intro x hx; simp only [List.mem_cons, List.not_mem_nil, or_false] at hx
          rcases hx with rfl | rfl <;> simp [ratingOptions])).2 demoHigh⟩

/-- C10: a venue whose rating field is null or 0 is excluded by the
minimum-rating filter for every non-empty selection, however low the
effective threshold: the predicate requires the rating to be truthy. -/
theorem filterByRatings_excludes_untruthy (r : ℚ) (rs : List ℚ) (vs : List Venue) (v : Venue)
    (h : v.google_rating = none ∨ v.google_rating = some 0) :
    v ∉ filterByRatings (r :: rs) vs := by
  intro hmem
  rw [filterByRatings, List.mem_filter] at hmem
  rcases h with h | h <;> simp [venueRatingAtLeast, h] at hmem

/-- Witness for C10: the rating-0 venue and the rating-less venue are both
excluded even by the threshold selection `{-5}`. -/
theorem filterByRatings_excludes_untruthy_witness :
    demoZeroRating ∉ filterByRatings [(-5 : ℚ)] demoVenues
    ∧ demoNoRating ∉ filterByRatings [(-5 : ℚ)] demoVenues :=
  ⟨filterByRatings_excludes_untruthy (-5) [] demoVenues demoZeroRating (Or.inr (by rfl)),
    filterByRatings_excludes_untruthy (-5) [] demoVenues demoNoRating (Or.inl (by rfl))⟩

/-- A single time range passes the `late` test exactly when its parsed
closing hour exists and is at least 18. -/
theorem closesLate_iff (tr : String) :
    closesLate tr = true ↔ ∃ n : Int, closingHour tr = some n ∧ 18 ≤ n := by
  unfold closesLate
  cases h : closingHour tr <;> simp [h]

/-- The `late` category reduces to the opening-hours test. -/
theorem categoryMatches_late_eq (v : Venue) : categoryMatches "late" v = openLate v := rfl

/-- C8: the open-late category filter includes a venue exactly when some
entry of its opening-hours mapping has a parsed closing hour of at least
18; in particular a venue whose Friday hours are "9:30-18:30" is included
and one whose Friday hours are "9:30-17:30" is excluded. -/
theorem categoryLate_spec :
    (∀ (v : Venue) (hours : List (String × String)), v.opening_hours = some hours →
      (categoryMatches "late" v = true ↔
        ∃ p ∈ hours, ∃ n : Int, closingHour p.2 = some n ∧ 18 ≤ n))
    ∧ categoryMatches "late" vFridayLate = true
    ∧ categoryMatches "late" vFridayEarly = false := by
  refine ⟨?_, by decide, by decide⟩
  intro v hours hh
  rw [categoryMatches_late_eq]
  simp only [openLate, hh, List.any_eq_true, List.mem_map, closesLate_iff]
  constructor
  · rintro ⟨x, ⟨p, hp, rfl⟩, n, hn, h18⟩
    exact ⟨p, hp, n, hn, h18⟩
  · rintro ⟨p, hp, n, hn, h18⟩
    exact ⟨p.2, ⟨p, hp, rfl⟩, n, hn, h18⟩

/-- Witness for C8: the venue open late only on Saturday (closing hour 20)
is included by the open-late filter. -/
theorem categoryLate_spec_witness :
    categoryMatches "late" vSaturdayLate = true :=
  (categoryLate_spec.1 vSaturdayLate [("Friday", "9:00-17:00"), ("Saturday", "10:00-20:00")]
    (by rfl)).mpr ⟨("Saturday", "10:00-20:00"), by decide, 20, by decide, by decide⟩

end SoftPlay
